import Mathlib

/-!
Verification of the resilient planning core of the `useragent_id` repository.

The Rust sources are embedded shallowly: pure data manipulation becomes Lean
functions, time (`Instant`, `chrono`) becomes explicit `Nat` millisecond
timestamps passed as arguments, `HashMap`/`HashSet` become association lists
and membership lists (their iteration order is irrelevant to the map/set
semantics), `Uuid::new_v4` becomes an explicit id-supply function
`Nat → String`, and the remote HTTP client becomes an oracle function
returning `Except PlannerError Task`.
-/

set_option maxRecDepth 4000

/-! ## types.rs — wire-shaped task types, execution traces, errors -/

namespace Types

/-- `SubtaskStatus` from `planner/src/types.rs`. -/
inductive SubtaskStatus where
  | Pending
  | InProgress
  | Completed
  | Failed
  | Cancelled
deriving DecidableEq, Repr

/-- `Subtask` from `planner/src/types.rs` (wire shape of a subtask). -/
structure Subtask where
  id : String
  objective : String
  required_agent : String
  input_keys : List String
  output_keys : List String
  status : SubtaskStatus
  dependencies : List String
deriving DecidableEq, Repr

/-- `TaskMetadata` from `planner/src/types.rs`. -/
structure TaskMetadata where
  created_at : Option String
  planner : Option String
  cached : Bool
  version : Option String
deriving DecidableEq, Repr

/-- `Task` from `planner/src/types.rs` (wire shape of a task). -/
structure Task where
  id : String
  objective : String
  subtasks : List Subtask
  metadata : TaskMetadata
deriving DecidableEq, Repr

/-- `ExecutionTrace` from `planner/src/types.rs`. The `outputs` field holds a
`serde_json::Value` in the source; it is modelled by its serialized text. -/
structure ExecutionTrace where
  task_id : String
  subtask_id : String
  agent_type : String
  status : SubtaskStatus
  timestamp : String
  outputs : Option String
  error : Option String
  duration_ms : Nat
deriving DecidableEq, Repr

/-- `PlannerError` from `planner/src/types.rs`. -/
inductive PlannerError where
  | ApiError (s : String)
  | RateLimited
  | AuthError
  | CircuitOpen
  | Timeout
  | SecurityError (s : String)
  | ActorError (s : String)
  | Other (s : String)
  | Network (s : String)
  | Authentication (s : String)
  | ServiceUnavailable (s : String)
  | InvalidResponse (s : String)
  | Internal (s : String)
  | ActorUnavailable (s : String)
  | ResponseChannelClosed (s : String)
deriving DecidableEq, Repr

/-- The `Display` implementation for `PlannerError` in `types.rs`. -/
def PlannerError.message : PlannerError → String
  | .ApiError s => "API error: " ++ s
  | .RateLimited => "Rate limited"
  | .AuthError => "Authentication error"
  | .CircuitOpen => "Circuit breaker is open"
  | .Timeout => "Request timed out"
  | .SecurityError s => "Security error: " ++ s
  | .ActorError s => "Actor error: " ++ s
  | .Other s => "Other error: " ++ s
  | .Network s => "Network error: " ++ s
  | .Authentication s => "Authentication error: " ++ s
  | .ServiceUnavailable s => "Service unavailable: " ++ s
  | .InvalidResponse s => "Invalid response: " ++ s
  | .Internal s => "Internal error: " ++ s
  | .ActorUnavailable s => "Actor unavailable: " ++ s
  | .ResponseChannelClosed s => "Response channel closed: " ++ s

/-- Discriminator: is this error the `ServiceUnavailable` variant? -/
def PlannerError.isServiceUnavailable : PlannerError → Bool
  | .ServiceUnavailable _ => true
  | _ => false

/-- Discriminator: is this error the `CircuitOpen` variant? -/
def PlannerError.isCircuitOpen : PlannerError → Bool
  | .CircuitOpen => true
  | _ => false

end Types

/-! ## task.rs — the canonical task shape used by the fallback planner

The namespace mirrors the Rust module path `crate::task` (Lean already has a
root `Task`). -/

namespace task

/-- `AgentType` from `planner/src/task.rs`. -/
inductive AgentType where
  | Scrape
  | Vision
  | Time
  | Data
  | Process
  | Custom (s : String)
deriving DecidableEq, Repr

/-- The `Display` implementation for `AgentType` in `task.rs`. -/
def AgentType.toStr : AgentType → String
  | .Scrape => "Scrape"
  | .Vision => "Vision"
  | .Time => "Time"
  | .Data => "Data"
  | .Process => "Process"
  | .Custom s => s

/-- The `FromStr` implementation for `AgentType` in `task.rs`; it never fails
(unknown strings become `Custom`). -/
def AgentType.fromStr (s : String) : AgentType :=
  match s with
  | "Scrape" => .Scrape
  | "Vision" => .Vision
  | "Time" => .Time
  | "Data" => .Data
  | "Process" => .Process
  | _ => .Custom s

/-- `TaskStatus` from `planner/src/task.rs`. -/
inductive TaskStatus where
  | Pending
  | InProgress
  | Completed
  | Failed
deriving DecidableEq, Repr

/-- `Subtask` from `planner/src/task.rs`. -/
structure Subtask where
  id : String
  objective : String
  required_agent : AgentType
  dependencies : List String
  input_keys : List String
  output_key : String
deriving DecidableEq, Repr

/-- `Task` from `planner/src/task.rs`. `created_at` is a unix timestamp. -/
structure Task where
  id : String
  objective : String
  subtasks : List Subtask
  status : TaskStatus
  created_at : Nat
deriving DecidableEq, Repr

end task

/-! ## circuit.rs — the circuit breaker state machine

`Instant` is modelled as a millisecond timestamp `Nat` supplied by the caller
(`now`); `time.elapsed()` becomes `now - t` on `Nat`. -/

/-- `CircuitState` from `planner/src/circuit.rs`. -/
inductive CircuitState where
  | Closed
  | Open
  | HalfOpen
deriving DecidableEq, Repr

/-- `CircuitBreakerConfig` from `planner/src/circuit.rs`. -/
structure CircuitBreakerConfig where
  failure_threshold : Nat
  reset_timeout_ms : Nat
  half_open_limit : Nat
deriving DecidableEq, Repr

/-- The `Default` implementation for `CircuitBreakerConfig`. -/
def CircuitBreakerConfig.default : CircuitBreakerConfig :=
  { failure_threshold := 5, reset_timeout_ms := 30000, half_open_limit := 1 }

/-- The mutable fields of `CircuitBreaker` from `planner/src/circuit.rs`
(the config is passed separately to each operation). -/
structure CircuitBreaker where
  state : CircuitState
  failure_counter : Nat
  last_failure : Option Nat
  half_open_counter : Nat
deriving DecidableEq, Repr

/-- `CircuitBreaker::new`: starts `Closed` with all counters zero. -/
def CircuitBreaker.new : CircuitBreaker :=
  { state := .Closed, failure_counter := 0, last_failure := none,
    half_open_counter := 0 }

/-- `CircuitBreaker::allow_request` from `planner/src/circuit.rs` lines 66-100.
Returns the request decision and the breaker state afterwards. In the
`HalfOpen` branch the source performs `fetch_add(1)` on the half-open counter
and compares the previous value against the limit. In the `Open` branch, once
`reset_timeout` has elapsed the source switches to `HalfOpen`, stores `0` into
the half-open counter and returns `Ok` directly, without touching the counter
it just reset. -/
def CircuitBreaker.allow_request (cb : CircuitBreaker) (config : CircuitBreakerConfig)
    (now : Nat) : Except Types.PlannerError Unit × CircuitBreaker :=
  match cb.state with
  | .Closed => (.ok (), cb)
  | .Open =>
    match cb.last_failure with
    | some t =>
      if now - t ≥ config.reset_timeout_ms then
        (.ok (), { cb with state := .HalfOpen, half_open_counter := 0 })
      else
        (.error (.ServiceUnavailable "Circuit breaker is open"), cb)
    | none =>
      (.error (.ServiceUnavailable "Circuit breaker is open"), cb)
  | .HalfOpen =>
    let current := cb.half_open_counter
    let cb2 := { cb with half_open_counter := current + 1 }
    if current < config.half_open_limit then
      (.ok (), cb2)
    else
      (.error (.ServiceUnavailable "Circuit breaker is half-open and at capacity"), cb2)

/-- `CircuitBreaker::on_success` from `planner/src/circuit.rs` lines 103-122. -/
def CircuitBreaker.on_success (cb : CircuitBreaker) : CircuitBreaker :=
  match cb.state with
  | .Closed => { cb with failure_counter := 0 }
  | .HalfOpen => { cb with state := .Closed, failure_counter := 0 }
  | .Open => cb

/-- `CircuitBreaker::on_failure` from `planner/src/circuit.rs` lines 125-151. -/
def CircuitBreaker.on_failure (cb : CircuitBreaker) (config : CircuitBreakerConfig)
    (now : Nat) : CircuitBreaker :=
  match cb.state with
  | .Closed =>
    let failures := cb.failure_counter + 1
    if failures ≥ config.failure_threshold then
      { cb with failure_counter := failures, state := .Open, last_failure := some now }
    else
      { cb with failure_counter := failures }
  | .HalfOpen => { cb with state := .Open, last_failure := some now }
  | .Open => { cb with last_failure := some now }

/-! ## client.rs — status-code mapping of the remote HTTP client -/

/-- The status-code handling of `LaVagueClient::make_request` in
`planner/src/client.rs` lines 86-108: `none` means success (2xx), otherwise
the mapped `PlannerError`. The formatted status text of the source's messages
is abbreviated to the numeric code. -/
def LaVagueClient.map_status (status : Nat) (error_text : String) :
    Option Types.PlannerError :=
  if 200 ≤ status ∧ status ≤ 299 then none
  else if status = 401 ∨ status = 403 then
    some (.Authentication ("Authentication failed: " ++ toString status))
  else if status = 429 then some .RateLimited
  else if status = 503 ∨ status = 502 then
    some (.ServiceUnavailable ("Service unavailable: " ++ toString status))
  else
    some (.InvalidResponse
      ("Unexpected status code: " ++ toString status ++ " - " ++ error_text))

/-! ## cache.rs — the bounded insertion-ordered plan cache

`HashMap<String, (Task, DateTime<Utc>)>` is modelled as an association list
(`hmInsert` replaces, `hmRemove` deletes, iteration order carries no meaning);
`DateTime<Utc>` and `chrono::Duration` are modelled as `Nat` timestamps passed
in by the caller. -/

/-- The entry list modelling the cache's `HashMap`: key, task, insertion time. -/
abbrev CacheEntries := List (String × Types.Task × Nat)

/-- Keys of the modelled `HashMap`. -/
def hmKeys (m : CacheEntries) : List String :=
  m.map (fun e => e.1)

/-- `HashMap::contains_key`. -/
def hmContains (m : CacheEntries) (k : String) : Bool :=
  m.any (fun e => e.1 == k)

/-- `HashMap::remove`. -/
def hmRemove (m : CacheEntries) (k : String) : CacheEntries :=
  m.filter (fun e => !(e.1 == k))

/-- `HashMap::insert` (replace an existing binding, else add one). -/
def hmInsert (m : CacheEntries) (k : String) (v : Types.Task) (now : Nat) :
    CacheEntries :=
  hmRemove m k ++ [(k, v, now)]

/-- `HashMap::get` as used by `PlanCache::get`. -/
def hmGet (m : CacheEntries) (k : String) : Option Types.Task :=
  (m.find? (fun e => e.1 == k)).map (fun e => e.2.1)

/-- `PlanCache` from `planner/src/cache.rs`: capacity, the `HashMap` of
entries, and `keys_order`, the explicit insertion-order list used for
eviction. -/
structure PlanCache where
  capacity : Nat
  cache : CacheEntries
  keys_order : List String
deriving DecidableEq, Repr

/-- `PlanCache::new` from `cache.rs` lines 12-20: the capacity is clamped
below by 1 (`capacity.max(1)`). -/
def PlanCache.new (capacity : Nat) : PlanCache :=
  { capacity := max capacity 1, cache := [], keys_order := [] }

/-- `PlanCache::get` from `cache.rs` lines 23-25. -/
def PlanCache.get (c : PlanCache) (objective : String) : Option Types.Task :=
  hmGet c.cache objective

/-- `PlanCache::insert` from `cache.rs` lines 28-47: if the cache is full and
the key is new, evict the entry named by the front of `keys_order`; then move
the key to the back of `keys_order` (the source removes its first occurrence
before pushing) and write the binding. `now` models `chrono::Utc::now()`. -/
def PlanCache.insert (c : PlanCache) (objective : String) (t : Types.Task)
    (now : Nat) : PlanCache :=
  let c1 :=
    if c.cache.length ≥ c.capacity ∧ hmContains c.cache objective = false then
      match c.keys_order.head? with
      | some old_key =>
        { c with cache := hmRemove c.cache old_key, keys_order := c.keys_order.tail }
      | none => c
    else c
  { c1 with
    cache := hmInsert c1.cache objective t now,
    keys_order := (c1.keys_order.erase objective) ++ [objective] }

/-- `PlanCache::clear_old_entries` from `cache.rs` lines 50-69: drop every
entry strictly older than `max_age` and its `keys_order` occurrence. -/
def PlanCache.clear_old_entries (c : PlanCache) (max_age now : Nat) : PlanCache :=
  let old_keys : List String :=
    (c.cache.filter (fun e => decide (now - e.2.2 > max_age))).map (fun e => e.1)
  { c with
    cache := c.cache.filter (fun e => !(decide (now - e.2.2 > max_age))),
    keys_order := c.keys_order.filter (fun k => !(old_keys.contains k)) }

/-- `PlanCache::clear` from `cache.rs` lines 72-75. -/
def PlanCache.clear (c : PlanCache) : PlanCache :=
  { c with cache := [], keys_order := [] }

/-- `PlanCache::len` from `cache.rs` lines 78-80. -/
def PlanCache.len (c : PlanCache) : Nat :=
  c.cache.length

/-- One mutating cache operation, for stating invariants over arbitrary
operation sequences. -/
inductive CacheOp where
  | ins (objective : String) (t : Types.Task) (now : Nat)
  | clearOld (max_age now : Nat)
  | clearAll
deriving Repr

/-- Apply one operation to the cache. -/
def PlanCache.applyOp (c : PlanCache) : CacheOp → PlanCache
  | .ins objective t now => c.insert objective t now
  | .clearOld max_age now => c.clear_old_entries max_age now
  | .clearAll => c.clear

/-- Apply a sequence of operations to the cache. -/
def PlanCache.run (c : PlanCache) (ops : List CacheOp) : PlanCache :=
  ops.foldl PlanCache.applyOp c

/-- Well-formedness of the modelled cache: the `HashMap` keys coincide with
`keys_order` (as lists — the model keeps its association list aligned with the
insertion order), the keys are distinct, the capacity is at least 1 and the
size is within capacity. `PlanCache::new` establishes it and every operation
preserves it. -/
def PlanCache.WF (c : PlanCache) : Prop :=
  hmKeys c.cache = c.keys_order ∧ c.keys_order.Nodup ∧
    1 ≤ c.capacity ∧ c.cache.length ≤ c.capacity

instance (c : PlanCache) : Decidable c.WF := by
  unfold PlanCache.WF
  infer_instance

/-! ## security.rs — input validation -/

/-- `DataSanitizer::validate_objective` from `planner/src/security.rs` lines
237-247. Rust `str::len` is the UTF-8 byte length, hence `utf8ByteSize`. -/
def DataSanitizer.validate_objective (objective : String) : Except String Unit :=
  if objective.utf8ByteSize = 0 then
    .error "Objective cannot be empty"
  else if objective.utf8ByteSize > 1000 then
    .error "Objective is too long (max 1000 characters)"
  else
    .ok ()

/-- The per-key loop of `DataSanitizer::validate_context_keys`. -/
def DataSanitizer.validate_keys_loop : List String → Except String Unit
  | [] => .ok ()
  | k :: rest =>
    if k.utf8ByteSize = 0 then
      .error "Context key cannot be empty"
    else if k.utf8ByteSize > 100 then
      .error "Context key is too long (max 100 characters)"
    else
      DataSanitizer.validate_keys_loop rest

/-- `DataSanitizer::validate_context_keys` from `planner/src/security.rs`
lines 250-266. -/
def DataSanitizer.validate_context_keys (keys : List String) : Except String Unit :=
  if keys.length > 100 then
    .error "Too many context keys (max 100)"
  else
    DataSanitizer.validate_keys_loop keys

/-! ## feedback.rs — the feedback collector's flush

The collector's shared mutable state (`pending`, `retry_counts`, `failed`) and
the feedback directory on disk are modelled explicitly; the remote client is an
oracle `ExecutionTrace → Except PlannerError Unit`. -/

/-- `FeedbackConfig` from `planner/src/feedback.rs`. -/
structure FeedbackConfig where
  feedback_dir : String
  batch_enabled : Bool
  batch_size : Nat
  flush_interval_seconds : Nat
  max_retries : Nat
deriving DecidableEq, Repr

/-- Lookup in the `retry_counts` `HashMap<String, u32>`. -/
def rcLookup (m : List (String × Nat)) (k : String) : Option Nat :=
  (m.find? (fun e => e.1 == k)).map (fun e => e.2)

/-- Replace-or-add in the `retry_counts` map (`HashMap::insert`). -/
def rcInsert (m : List (String × Nat)) (k : String) (v : Nat) : List (String × Nat) :=
  m.filter (fun e => !(e.1 == k)) ++ [(k, v)]

/-- `HashMap::remove` on the `retry_counts` map. -/
def rcRemove (m : List (String × Nat)) (k : String) : List (String × Nat) :=
  m.filter (fun e => !(e.1 == k))

/-- `tokio::fs::write` on the feedback directory: overwrite the file if it
already exists (files are named by trace id, so a rewrite replaces). -/
def fsWrite (files : List (String × Types.ExecutionTrace)) (name : String)
    (t : Types.ExecutionTrace) : List (String × Types.ExecutionTrace) :=
  files.filter (fun e => !(e.1 == name)) ++ [(name, t)]

/-- The mutable state of `FeedbackCollector` plus the feedback directory. -/
structure FeedbackState where
  pending : List Types.ExecutionTrace
  retry_counts : List (String × Nat)
  failed : List Types.ExecutionTrace
  files : List (String × Types.ExecutionTrace)
deriving DecidableEq, Repr

/-- `FeedbackCollector::flush_pending_traces` from `planner/src/feedback.rs`
lines 197-258: take the pending list; for each trace submit it; on success
drop its retry-count entry; on failure bump the count, re-queue below
`max_retries`, otherwise move the trace to `failed` and write
`failed_trace_{task_id}-{subtask_id}.json`. The source never removes the
retry-count entry on this exhaustion path. -/
def flush_pending_traces
    (client : Types.ExecutionTrace → Except Types.PlannerError Unit)
    (config : FeedbackConfig) (st : FeedbackState) : FeedbackState :=
  let traces := st.pending
  let st0 := { st with pending := [] }
  traces.foldl
    (fun s trace =>
      let trace_id := trace.task_id ++ "-" ++ trace.subtask_id
      match client trace with
      | .ok () => { s with retry_counts := rcRemove s.retry_counts trace_id }
      | .error _ =>
        let count := (rcLookup s.retry_counts trace_id).getD 0 + 1
        let rc := rcInsert s.retry_counts trace_id count
        if count < config.max_retries then
          { s with retry_counts := rc, pending := s.pending ++ [trace] }
        else
          { s with
            retry_counts := rc,
            failed := s.failed ++ [trace],
            files := fsWrite s.files ("failed_trace_" ++ trace_id ++ ".json") trace })
    st0

/-- `FeedbackMetrics` from `planner/src/feedback.rs`. -/
structure FeedbackMetrics where
  pending_count : Nat
  failed_count : Nat
  retry_counts : Nat
deriving DecidableEq, Repr

/-- `FeedbackCollector::get_metrics` from `planner/src/feedback.rs` lines
261-267. -/
def get_metrics (st : FeedbackState) : FeedbackMetrics :=
  { pending_count := st.pending.length, failed_count := st.failed.length,
    retry_counts := st.retry_counts.length }

/-! ## fallback.rs — the rule-based fallback planner -/

/-- `PlanningRule` from `planner/src/fallback.rs`. -/
structure PlanningRule where
  name : String
  priority : Nat
  keywords : List String
  agent_type : String
  required_inputs : List String
  output_keys : List String
  stage : Nat
deriving DecidableEq, Repr

/-- `AgentCapability` from `planner/src/capability.rs`, restricted to the two
fields the fallback planner reads (`name` and `agent_type`, the latter already
rendered to its `Display` string as in `filter_rules_by_capabilities`). -/
structure AgentCapability where
  name : String
  agent_type : String
deriving DecidableEq, Repr

/-- Rust `str::contains(pat)`: `pat` is a contiguous substring of `s`,
expressed on the character lists. -/
def strContainsSub (s pat : String) : Bool :=
  decide (pat.data <:+: s.data)

/-- Rust `str::to_lowercase`, expressed on the character list (ASCII case
mapping as in `Char.toLower`; the planner's rule keywords are ASCII). -/
def strToLower (s : String) : String :=
  ⟨s.data.map Char.toLower⟩

/-- `FallbackPlanner::default_rules` from `planner/src/fallback.rs` lines
74-173, transcribed verbatim. -/
def FallbackPlanner.default_rules : List PlanningRule :=
  [ { name := "Web Scraping", priority := 10,
      keywords := ["scrape", "browse", "visit", "navigate", "search",
        "find online", "look up", "website", "webpage", "http", "https", "url"],
      agent_type := "Scrape",
      required_inputs := ["target_url"],
      output_keys := ["page_content", "status_code"], stage := 10 },
    { name := "Content Processing", priority := 20,
      keywords := ["process", "analyze", "extract", "summarize", "parse",
        "transform"],
      agent_type := "Process",
      required_inputs := ["content", "page_content"],
      output_keys := ["processed_data", "summary"], stage := 20 },
    { name := "Data Storage", priority := 30,
      keywords := ["save", "store", "record", "persist", "database"],
      agent_type := "Data",
      required_inputs := ["data", "processed_data", "content"],
      output_keys := ["stored_location", "success"], stage := 30 },
    { name := "Vision Analysis", priority := 15,
      keywords := ["image", "picture", "photo", "visual", "vision", "look at",
        "analyze image"],
      agent_type := "Vision",
      required_inputs := ["image_path", "image_url"],
      output_keys := ["vision_result", "detected_objects"], stage := 15 },
    { name := "Time Operations", priority := 25,
      keywords := ["schedule", "timer", "wait", "delay", "remind", "after",
        "before"],
      agent_type := "Time",
      required_inputs := ["duration", "target_time"],
      output_keys := ["completion_time"], stage := 25 } ]

/-- `FallbackPlanner::find_similar_learned_pattern` from `fallback.rs` lines
225-239: first learned entry whose objective is a substring of the current one
in either direction; a hit is cloned with the objective replaced. The
`HashMap` iteration is modelled by the list order. -/
def FallbackPlanner.find_similar_learned_pattern
    (learned : List (String × task.Task)) (objective : String) :
    Option task.Task :=
  learned.findSome? (fun e =>
    if strContainsSub e.1 objective || strContainsSub objective e.1 then
      some { e.2 with objective := objective }
    else
      none)

/-- One step of a stable insertion sort: place `x` after every element whose
key is at most `key x`. -/
def insertSorted (key : PlanningRule → Nat) (x : PlanningRule) :
    List PlanningRule → List PlanningRule
  | [] => [x]
  | h :: t =>
    if key h ≤ key x then h :: insertSorted key x t else x :: h :: t

/-- Stable sort by key, modelling `Vec::sort_by_key` (insertion in the
original order keeps equal keys in their relative order). -/
def sortByKey (key : PlanningRule → Nat) (l : List PlanningRule) :
    List PlanningRule :=
  l.foldl (fun acc x => insertSorted key x acc) []

/-- `FallbackPlanner::match_rules` from `fallback.rs` lines 242-264: keep the
rules with a keyword occurring in the lower-cased objective; if none matched,
fall back to the rules with empty `required_inputs`; finally stable-sort by
`stage`. -/
def FallbackPlanner.match_rules (rules : List PlanningRule) (objective : String) :
    List PlanningRule :=
  let lower_obj := strToLower objective
  let matched := rules.filter
    (fun r => r.keywords.any (fun k => strContainsSub lower_obj (strToLower k)))
  let matched2 :=
    if matched.isEmpty then
      rules.filter (fun r => r.required_inputs.isEmpty)
    else
      matched
  sortByKey (fun r => r.stage) matched2

/-- `FallbackPlanner::filter_rules_by_capabilities` from `fallback.rs` lines
267-276: keep rules whose `agent_type` occurs among the discovered
capabilities' agent-type strings. -/
def FallbackPlanner.filter_rules_by_capabilities (rules : List PlanningRule)
    (capabilities : List AgentCapability) : List PlanningRule :=
  rules.filter (fun r => capabilities.any (fun c => c.agent_type == r.agent_type))

/-- `FallbackPlanner::build_dependency_graph` from `fallback.rs` lines
279-307: rule `a` depends on rule `b` iff `b.stage < a.stage` and some output
key of `b` is among `a`'s required inputs. The source also computes a local
`executable_rules` vector from the context keys, but never uses it for the
returned graph; that dead computation is not modelled. -/
def FallbackPlanner.build_dependency_graph (rules : List PlanningRule) :
    List (PlanningRule × List PlanningRule) :=
  rules.map (fun rule =>
    (rule, rules.filter (fun r =>
      decide (r.stage < rule.stage) &&
        r.output_keys.any (fun k => rule.required_inputs.contains k))))

/-- The `name → subtask id` map built in the first pass of
`generate_subtasks` (`HashMap::insert` replaces on duplicate rule names). -/
def FallbackPlanner.idMap (graph : List (PlanningRule × List PlanningRule))
    (newId : Nat → String) : List (String × String) :=
  (graph.enum).foldl (fun m e =>
    m.filter (fun p => !(p.1 == e.2.1.name)) ++ [(e.2.1.name, newId e.1)]) []

/-- Lookup in the id map. -/
def FallbackPlanner.idLookup (m : List (String × String)) (k : String) :
    Option String :=
  (m.find? (fun e => e.1 == k)).map (fun e => e.2)

/-- `FallbackPlanner::generate_subtasks` from `fallback.rs` lines 310-369:
one subtask per graph node — the `i`-th node gets the fresh id `newId i`, the
input keys are the required inputs present in the context, the agent string is
parsed as in the source `match` (same table as `AgentType::from_str`), the
output key is the head of `output_keys` (default "result"), and the second
pass fills the dependency ids through the name map. -/
def FallbackPlanner.generate_subtasks (objective : String)
    (graph : List (PlanningRule × List PlanningRule))
    (context_keys : List String) (newId : Nat → String) : List task.Subtask :=
  let id_map := FallbackPlanner.idMap graph newId
  (graph.enum).map (fun e =>
    let rule := e.2.1
    let deps := e.2.2
    { id := newId e.1,
      objective := rule.name ++ ": " ++ objective,
      required_agent := task.AgentType.fromStr rule.agent_type,
      dependencies := deps.filterMap
        (fun d => FallbackPlanner.idLookup id_map d.name),
      input_keys := rule.required_inputs.filter
        (fun k => context_keys.contains k),
      output_key := (rule.output_keys.head?).getD "result" })

/-- `FallbackPlanner::generate_plan` from `fallback.rs` lines 176-222:
learned-pattern short-circuit, rule matching, capability filtering, graph
construction, subtask generation, then the final `Task`. The task id
`Uuid::new_v4()` is modelled as `newId graph.length` (distinct from every
subtask id for an injective supply); `now` models the unix timestamp. The
source's `Result` is only fallible through clock errors, so the model always
returns `ok`. -/
def FallbackPlanner.generate_plan (rules : List PlanningRule)
    (learned : List (String × task.Task))
    (capabilities : List AgentCapability) (objective : String)
    (context_keys : List String) (newId : Nat → String) (now : Nat) :
    Except String task.Task :=
  match FallbackPlanner.find_similar_learned_pattern learned objective with
  | some t => .ok t
  | none =>
    let matched := FallbackPlanner.match_rules rules objective
    let matched2 := FallbackPlanner.filter_rules_by_capabilities matched capabilities
    let graph := FallbackPlanner.build_dependency_graph matched2
    let subtasks := FallbackPlanner.generate_subtasks objective graph context_keys newId
    .ok { id := newId graph.length, objective := objective,
          subtasks := subtasks, status := .Pending, created_at := now }

/-! ## planner.rs — local planning, validation and the facade -/

/-- `Intent` from `planner/src/planner.rs`. -/
inductive Intent where
  | Scrape
  | Process
  | Store
  | General
deriving DecidableEq, Repr

/-- `LocalIntentAnalyzer::analyze` from `planner/src/planner.rs` lines
385-423: keyword detection over the lower-cased objective, defaulting to
`General`. -/
def LocalIntentAnalyzer.analyze (objective : String) : List Intent :=
  let lower_obj := strToLower objective
  let has := fun (pat : String) => strContainsSub lower_obj pat
  let intents : List Intent :=
    (if has "scrape" || has "browse" || has "visit" || has "navigate" ||
        has "search" || has "find" || has "look up" then [Intent.Scrape] else []) ++
    (if has "process" || has "analyze" || has "extract" || has "summarize" ||
        has "parse" then [Intent.Process] else []) ++
    (if has "save" || has "store" || has "record" || has "persist" then
      [Intent.Store] else [])
  if intents.isEmpty then [Intent.General] else intents

/-- The accumulator of `SubtaskGenerator::generate_subtasks`: the subtasks
built so far and the running `dependencies` id vector. -/
structure GenAcc where
  subtasks : List task.Subtask
  dependencies : List String
deriving Repr

/-- `SubtaskGenerator::generate_subtasks` from `planner/src/planner.rs` lines
443-537: one pass over the detected intents with a running `dependencies`
vector; the `i`-th iteration's `Uuid::new_v4()` is `newId i`. `"General"`
parses to `AgentType.Custom "General"` exactly as in the source
(`"General".parse()` hits the catch-all arm of `FromStr`). -/
def SubtaskGenerator.generate_subtasks (objective : String)
    (intents : List Intent) (available_inputs : List String)
    (newId : Nat → String) : List task.Subtask :=
  let final := (intents.enum).foldl
    (fun (acc : GenAcc) e =>
      let idx := e.1
      let subtask_id := newId idx
      match e.2 with
      | .Scrape =>
        let has_url := available_inputs.any (fun s => s == "target_url" || s == "url")
        let input_keys := if has_url then ["target_url"] else []
        let st : task.Subtask :=
          { id := subtask_id,
            objective := "Scrape information related to: " ++ objective,
            required_agent := task.AgentType.fromStr "Scrape",
            dependencies := [],
            input_keys := input_keys,
            output_key := "page_content" }
        { subtasks := acc.subtasks ++ [st],
          dependencies := acc.dependencies ++ [subtask_id] }
      | .Process =>
        let pair :=
          if intents.contains Intent.Scrape then
            (["page_content"], acc.dependencies)
          else if !available_inputs.isEmpty then
            (available_inputs, [])
          else
            ([], [])
        let st : task.Subtask :=
          { id := subtask_id,
            objective := "Process information for: " ++ objective,
            required_agent := task.AgentType.fromStr "Process",
            dependencies := pair.2,
            input_keys := pair.1,
            output_key := "processed_data" }
        { subtasks := acc.subtasks ++ [st],
          dependencies := acc.dependencies ++ [subtask_id] }
      | .Store =>
        let input_keys :=
          if intents.contains Intent.Process then ["processed_data"]
          else if intents.contains Intent.Scrape then ["page_content"]
          else []
        let st : task.Subtask :=
          { id := subtask_id,
            objective := "Store results for: " ++ objective,
            required_agent := task.AgentType.fromStr "Data",
            dependencies := acc.dependencies,
            input_keys := input_keys,
            output_key := "stored_location" }
        { acc with subtasks := acc.subtasks ++ [st] }
      | .General =>
        if idx = 0 ∧ intents.length = 1 then
          let st : task.Subtask :=
            { id := subtask_id,
              objective := objective,
              required_agent := task.AgentType.fromStr "General",
              dependencies := [],
              input_keys := available_inputs,
              output_key := "result" }
          { acc with subtasks := acc.subtasks ++ [st] }
        else
          acc)
    { subtasks := [], dependencies := [] }
  final.subtasks

/-- `HashSet::insert` on a set modelled as a duplicate-free list. -/
def insertSet (x : String) (s : List String) : List String :=
  if s.contains x then s else x :: s

/-- `has_cycle` from `planner/src/planner.rs` lines 581-604: depth-first
traversal with a `visited` set and a `path` set, both threaded through the
recursion; the current id joins both sets on entry and leaves `path` on exit.
The `fuel` argument makes the recursion structural; every nested call is on a
node absent from `visited`, which grows at each level, so the depth never
exceeds the number of subtasks — callers pass `all.length + 1`, which is never
exhausted. -/
def has_cycle (all : List task.Subtask) :
    Nat → task.Subtask → List String → List String →
      Bool × List String × List String
  | 0, _, visited, path => (false, visited, path)
  | fuel + 1, current, visited, path =>
    let visited1 := insertSet current.id visited
    let path1 := insertSet current.id path
    let r := current.dependencies.foldl
      (fun acc dep_id =>
        match acc with
        | (true, v, p) => (true, v, p)
        | (false, v, p) =>
          match all.find? (fun st => st.id == dep_id) with
          | none => (false, v, p)
          | some dep =>
            if v.contains dep.id then
              (if p.contains dep.id then (true, v, p) else (false, v, p))
            else
              has_cycle all fuel dep v p)
      (false, visited1, path1)
    match r with
    | (true, v, p) => (true, v, p)
    | (false, v, p) => (false, v, p.erase current.id)

/-- The cycle-detection loop of `validate_plan` (`planner.rs` lines 548-557):
visit each subtask not yet in `visited`, threading the shared mutable sets. -/
def checkCycles (all : List task.Subtask) :
    List task.Subtask → List String → List String → Bool
  | [], _, _ => false
  | st :: rest, visited, path =>
    if visited.contains st.id then
      checkCycles all rest visited path
    else
      match has_cycle all (all.length + 1) st visited path with
      | (true, _, _) => true
      | (false, v2, p2) => checkCycles all rest v2 p2

/-- The dangling-dependency loop of `validate_plan` (`planner.rs` lines
560-566): the first `(subtask id, dependency id)` pair whose dependency names
no subtask of the plan. -/
def findDangling (subtasks : List task.Subtask) : Option (String × String) :=
  subtasks.findSome? (fun st =>
    (st.dependencies.find?
        (fun dep => !(subtasks.any (fun s2 => s2.id == dep)))).map
      (fun dep => (st.id, dep)))

/-- `get_available_agents` from `planner/src/planner.rs` lines 607-617. -/
def get_available_agents : List String :=
  ["Scrape", "Process", "Data", "General", "Time", "Vision"]

/-- `validate_plan` from `planner/src/planner.rs` lines 541-578: reject empty
plans, dependency cycles, and dangling dependency ids, in that order. The
final loop over `get_available_agents` only logs a warning and never fails, so
it does not affect the result. -/
def validate_plan (subtasks : List task.Subtask) : Except String Unit :=
  if subtasks.isEmpty then
    .error "Generated plan has no subtasks"
  else if checkCycles subtasks subtasks [] [] then
    .error "Generated plan has circular dependencies"
  else
    match findDangling subtasks with
    | some pr =>
      .error ("Subtask " ++ pr.1 ++ " depends on non-existent subtask " ++ pr.2)
    | none => .ok ()

/-- `local_planning` from `planner/src/planner.rs` lines 342-375: analyze
intents, generate subtasks, validate, and assemble the task. The leading
`Uuid::new_v4()` for the task id is `newId 0`; the generator's per-subtask
uuids continue the supply. -/
def local_planning (objective : String) (context_keys : List String)
    (newId : Nat → String) (now : Nat) : Except String task.Task :=
  let task_id := newId 0
  let intents := LocalIntentAnalyzer.analyze objective
  let available_inputs := context_keys
  let subtasks := SubtaskGenerator.generate_subtasks objective intents
    available_inputs (fun i => newId (i + 1))
  match validate_plan subtasks with
  | .error e => .error e
  | .ok () =>
    .ok { id := task_id, objective := objective, subtasks := subtasks,
          status := .Pending, created_at := now }

/-- Rust `str::parse::<u64>` (decimal, no sign), on the character list. -/
def parseNatAux : List Char → Nat → Option Nat
  | [], acc => some acc
  | c :: t, acc =>
    if c.isDigit then parseNatAux t (acc * 10 + (c.toNat - 48)) else none

/-- Rust `str::parse::<u64>`: at least one digit, digits only. -/
def parseNat (s : String) : Option Nat :=
  match s.data with
  | [] => none
  | l => parseNatAux l 0

/-- `Planner::convert_types_task_to_task` from `planner/src/planner.rs` lines
194-213: map the wire subtasks into the canonical shape (`from_str` on the
agent string, first output key or empty default) and parse `created_at`,
defaulting to the current unix time `now`. -/
def convert_types_task_to_task (types_task : Types.Task) (now : Nat) : task.Task :=
  let subtasks := types_task.subtasks.map (fun s =>
    ({ id := s.id, objective := s.objective,
       required_agent := task.AgentType.fromStr s.required_agent,
       dependencies := s.dependencies,
       input_keys := s.input_keys,
       output_key := (s.output_keys.head?).getD "" } : task.Subtask))
  { id := types_task.id, objective := types_task.objective,
    subtasks := subtasks, status := .Pending,
    created_at := ((types_task.metadata.created_at).bind parseNat).getD now }

/-- `Planner::convert_task_to_types_task` from `planner/src/planner.rs` lines
216-238. -/
def convert_task_to_types_task (t : task.Task) : Types.Task :=
  { id := t.id, objective := t.objective,
    subtasks := t.subtasks.map (fun s =>
      ({ id := s.id, objective := s.objective,
         required_agent := s.required_agent.toStr,
         input_keys := s.input_keys,
         output_keys := [s.output_key],
         status := .Pending,
         dependencies := s.dependencies } : Types.Subtask)),
    metadata := { created_at := some (toString t.created_at),
                  planner := some "LaVague", cached := false,
                  version := some "1.0" } }

/-- `call_lavague` from `planner/src/planner.rs` lines 301-339: validate the
objective and the context keys, and only then call the client; the returned
flag records whether the client was invoked. The client oracle stands for
`LaVagueClient::decompose_task` (which performs the network request with no
validation of its own). -/
def call_lavague (client : String → List String → Except String Types.Task)
    (objective : String) (context_keys : List String) (now : Nat) :
    Except String task.Task × Bool :=
  match DataSanitizer.validate_objective objective with
  | .error e => (.error ("Invalid objective: " ++ e), false)
  | .ok () =>
    match DataSanitizer.validate_context_keys context_keys with
    | .error e => (.error ("Invalid context keys: " ++ e), false)
    | .ok () =>
      match client objective context_keys with
      | .error e => (.error ("Failed to call LaVague API: " ++ e), true)
      | .ok types_task => (.ok (convert_types_task_to_task types_task now), true)

/-- `PlannerMode` from `planner/src/planner.rs`. -/
inductive PlannerMode where
  | LaVague
  | Local
  | Hybrid
deriving DecidableEq, Repr

/-- What one call of the facade `decompose_task` did: its result, whether the
cache answered, how many times the remote client was invoked, the circuit
breaker owned by the call's `Planner` as the call ends, and that planner's
cache as the call ends (the source drops the whole `Planner` on return). -/
structure DecomposeOutcome where
  result : Except String task.Task
  cache_hit : Bool
  remote_calls : Nat
  breaker : CircuitBreaker
  cacheAfter : Option PlanCache
deriving Repr

/-- `decompose_task` from `planner/src/planner.rs` lines 619-921, for a
configured remote endpoint. Every call builds a fresh `Planner` —
`Planner::new` runs inside the function (line 631), so the plan cache starts
empty and the circuit breaker starts `Closed` on each call. The cache is
consulted, the mode dispatch runs (`LaVague`/`Hybrid` go through the actor
system straight to `LaVagueClient::decompose_task`, which the `remote` oracle
models; the breaker is never consulted on that path), and a successful result
is stored into the call's own cache before the planner is dropped. Feedback
traces only log telemetry and do not alter the planning result. -/
def decompose_task (mode : PlannerMode) (enable_cache : Bool)
    (cache_capacity : Nat)
    (remote : String → List String → Except Types.PlannerError Types.Task)
    (objective : String) (context_keys : List String)
    (newId : Nat → String) (now : Nat) : DecomposeOutcome :=
  let planner_cache : Option PlanCache :=
    if enable_cache then some (PlanCache.new cache_capacity) else none
  let cached : Option Types.Task :=
    if enable_cache then
      match planner_cache with
      | some c => c.get objective
      | none => none
    else none
  match cached with
  | some types_task =>
    { result := .ok (convert_types_task_to_task types_task now),
      cache_hit := true, remote_calls := 0, breaker := CircuitBreaker.new,
      cacheAfter := planner_cache }
  | none =>
    let step : Except String task.Task × Nat :=
      match mode with
      | .Local => (local_planning objective context_keys newId now, 0)
      | .LaVague =>
        match remote objective context_keys with
        | .ok t => (.ok (convert_types_task_to_task t now), 1)
        | .error e => (.error ("Actor system error: " ++ e.message), 1)
      | .Hybrid =>
        match remote objective context_keys with
        | .ok t => (.ok (convert_types_task_to_task t now), 1)
        | .error _ => (local_planning objective context_keys newId now, 1)
    let cacheAfter : Option PlanCache :=
      match step.1, planner_cache with
      | .ok t, some c => some (c.insert objective (convert_task_to_types_task t) now)
      | _, c => c
    { result := step.1, cache_hit := false, remote_calls := step.2,
      breaker := CircuitBreaker.new, cacheAfter := cacheAfter }

deriving instance DecidableEq for Except

/-! ## Theorems -/

/-- Claim C3 (code bug in `allow_request`): with `failure_threshold = 3`,
three consecutive `on_failure` calls in `Closed` do reach `Open`;
`allow_request` rejects until `reset_timeout` (100 ms) has elapsed; and a
subsequent success closes / failure reopens the breaker — but after the
timeout TWO requests are allowed, not exactly one: the call that performs the
`Open → HalfOpen` transition returns `Ok` without consuming the half-open
budget, and the next call still sees `half_open_counter = 0 < 1`. The claim's
"any further request before an outcome is rejected" (and the source's own test
at `circuit.rs` lines 248-253) is violated by the fourth conjunct. -/
theorem circuit_breaker_half_open_C3 :
    let cfg : CircuitBreakerConfig :=
      { failure_threshold := 3, reset_timeout_ms := 100, half_open_limit := 1 }
    let cb3 : CircuitBreaker :=
      ((CircuitBreaker.new.on_failure cfg 0).on_failure cfg 0).on_failure cfg 0
    let first := cb3.allow_request cfg 150
    let second := first.2.allow_request cfg 150
    -- three consecutive failures trip the breaker
    cb3.state = CircuitState.Open ∧
    -- before the reset timeout every request is rejected
    (cb3.allow_request cfg 50).1 =
      .error (.ServiceUnavailable "Circuit breaker is open") ∧
    -- after the timeout the transition request is allowed
    first.1 = .ok () ∧ first.2.state = CircuitState.HalfOpen ∧
    -- the code also allows the NEXT request (claim and source test demand
    -- rejection here)
    second.1 = .ok () ∧
    -- only the third request is rejected
    (second.2.allow_request cfg 150).1 =
      .error (.ServiceUnavailable "Circuit breaker is half-open and at capacity") ∧
    -- a success in HalfOpen closes the breaker, a failure reopens it
    second.2.on_success.state = CircuitState.Closed ∧
    (second.2.on_failure cfg 150).state = CircuitState.Open := by
  decide

/-- A breaker sitting in the `Open` state with a recent failure. -/
def openBreaker : CircuitBreaker :=
  { state := .Open, failure_counter := 5, last_failure := some 0,
    half_open_counter := 0 }

/-- A breaker in the `HalfOpen` state whose probe budget is spent. -/
def halfOpenBreakerAtCap : CircuitBreaker :=
  { state := .HalfOpen, failure_counter := 5, last_failure := some 0,
    half_open_counter := 1 }

/-- Claim C8 (code bug in the rejection error): when the breaker rejects a
request — `Open` before `reset_timeout`, or `HalfOpen` at capacity — the
rejection indeed leaves `failure_counter` untouched, but the error is
`PlannerError.ServiceUnavailable`, the very variant `map_status` produces for
downstream 502/503 responses, not the dedicated `CircuitOpen` variant that
`types.rs` declares for this purpose and that no code ever constructs. -/
theorem allow_request_error_variant_C8 :
    -- the Open-state rejection is a ServiceUnavailable, not CircuitOpen
    (CircuitBreaker.allow_request openBreaker CircuitBreakerConfig.default 10).1
      = .error (.ServiceUnavailable "Circuit breaker is open") ∧
    (CircuitBreaker.allow_request openBreaker CircuitBreakerConfig.default 10).1
      ≠ .error .CircuitOpen ∧
    -- the HalfOpen-at-capacity rejection likewise
    (CircuitBreaker.allow_request halfOpenBreakerAtCap
        CircuitBreakerConfig.default 10).1
      = .error (.ServiceUnavailable "Circuit breaker is half-open and at capacity") ∧
    (CircuitBreaker.allow_request halfOpenBreakerAtCap
        CircuitBreakerConfig.default 10).1 ≠ .error .CircuitOpen ∧
    -- a downstream 503 (and 502) maps to the same ServiceUnavailable variant,
    -- so callers cannot tell a breaker rejection from a downstream failure
    (LaVagueClient.map_status 503 "").map Types.PlannerError.isServiceUnavailable
      = some true ∧
    (LaVagueClient.map_status 502 "").map Types.PlannerError.isServiceUnavailable
      = some true ∧
    -- a rejection does not increment the failure counter
    (CircuitBreaker.allow_request openBreaker
        CircuitBreakerConfig.default 10).2.failure_counter
      = openBreaker.failure_counter ∧
    (CircuitBreaker.allow_request halfOpenBreakerAtCap
        CircuitBreakerConfig.default 10).2.failure_counter
      = halfOpenBreakerAtCap.failure_counter := by
  decide

/-- The five agent capabilities, all present, so that capability filtering
cannot be the reason a plan comes out empty. -/
def allCapabilities : List AgentCapability :=
  [ { name := "s", agent_type := "Scrape" },
    { name := "p", agent_type := "Process" },
    { name := "d", agent_type := "Data" },
    { name := "v", agent_type := "Vision" },
    { name := "t", agent_type := "Time" } ]

/-- Claim C5 (code bug in the generic-rule fallback): the objective
`"Do something"` (the input of the source's own test, `fallback.rs` lines
436-437) matches no rule keyword, and the fallback set — the default rules
with empty `required_inputs` — is empty, because every default rule has
non-empty `required_inputs`. Consequently `generate_plan` (no learned
patterns, every capability available) returns a `Task` with zero subtasks
instead of "never returning empty-handed". -/
theorem fallback_generic_rules_empty_C5 :
    -- no default rule has empty required_inputs, so the claimed generic
    -- fallback set is empty
    FallbackPlanner.default_rules.filter (fun r => r.required_inputs.isEmpty)
      = [] ∧
    -- hence rule matching comes back empty-handed on an unmatched objective
    FallbackPlanner.match_rules FallbackPlanner.default_rules "Do something"
      = [] ∧
    -- and generate_plan returns a task with zero subtasks
    (FallbackPlanner.generate_plan FallbackPlanner.default_rules []
        allCapabilities "Do something" [] (fun n => "id" ++ toString n)
        0).toOption.map (fun t => t.subtasks.length) = some 0 ∧
    -- while an objective hitting a keyword does match, so the defect is
    -- specifically the empty generic-rule subset
    (FallbackPlanner.match_rules FallbackPlanner.default_rules
        "Scrape website data").map (fun r => r.name) = ["Web Scraping"] := by
  decide

/-- Claim C1 (code bug in the facade's cache lifetime): `decompose_task`
constructs a fresh `Planner` — and with it a fresh, empty `PlanCache` — inside
every call (`planner.rs` line 631), so the lookup can never hit, for any mode,
flag, oracle or objective; in particular a second call with the same objective
`"X"` re-runs planning and produces a task with a new UUID (`"r2-0"` against
the first call's `"r1-0"`), while its own cache copy did hold `"X"` when the
first call dropped it. -/
theorem decompose_task_fresh_cache_C1 :
    (∀ (mode : PlannerMode) (ec : Bool) (cap : Nat)
        (remote : String → List String → Except Types.PlannerError Types.Task)
        (objective : String) (context_keys : List String)
        (newId : Nat → String) (now : Nat),
      (decompose_task mode ec cap remote objective context_keys newId now).cache_hit
        = false) ∧
    -- first call, Local mode, caching enabled: plans "X" and stores it
    (decompose_task .Local true 100 (fun _ _ => .error .Timeout) "X" []
        (fun n => "r1-" ++ toString n) 0).result.toOption.map (fun t => t.id)
      = some "r1-0" ∧
    ((decompose_task .Local true 100 (fun _ _ => .error .Timeout) "X" []
        (fun n => "r1-" ++ toString n) 0).cacheAfter.map
      (fun c => c.keys_order)) = some ["X"] ∧
    -- second call with the same objective: no cached id comes back, a fresh
    -- task id is generated instead
    (decompose_task .Local true 100 (fun _ _ => .error .Timeout) "X" []
        (fun n => "r2-" ++ toString n) 0).result.toOption.map (fun t => t.id)
      = some "r2-0" := by
  refine ⟨?_, by decide, by decide, by decide⟩
  intro mode ec cap remote objective context_keys newId now
  unfold decompose_task
  cases ec <;> simp [PlanCache.get, PlanCache.new, hmGet]

/-- The remote oracle of the spec's circuit-breaker scenario: every
decomposition attempt fails with `ServiceUnavailable`. -/
def alwaysFailingRemote :
    String → List String → Except Types.PlannerError Types.Task :=
  fun _ _ => .error (.ServiceUnavailable "Service unavailable: 503")

/-- Claim C2 (code bug in the facade's breaker wiring): in `Hybrid` (and
`LaVague`) mode the facade reaches the remote client through the actor system
(`planner.rs` lines 783-786, `actor.rs` lines 93-109), never through
`CircuitBreaker::allow_request` or the `CircuitProtected::execute` wrapper it
constructs; moreover each call builds a fresh breaker. So with an
always-failing remote, EVERY call — the second one included, however the first
ended — performs exactly one remote invocation (the claim demands zero once
the circuit opened), the breaker comes back untouched in its initial `Closed`
state with failure counter 0, and the result is produced by local planning. -/
theorem decompose_task_circuit_bypass_C2 :
    (∀ (objective : String) (context_keys : List String)
        (newId : Nat → String) (now : Nat),
      let out := decompose_task .Hybrid true 100 alwaysFailingRemote
        objective context_keys newId now
      out.remote_calls = 1 ∧
      out.breaker = CircuitBreaker.new ∧
      out.breaker.state = CircuitState.Closed ∧
      out.breaker.failure_counter = 0 ∧
      out.result = local_planning objective context_keys newId now) ∧
    -- the concrete second call of the scenario: one more network invocation
    (decompose_task .Hybrid true 100 alwaysFailingRemote "X" []
        (fun n => "r2-" ++ toString n) 0).remote_calls = 1 := by
  refine ⟨?_, by decide⟩
  intro objective context_keys newId now
  unfold decompose_task
  simp only [PlanCache.get, PlanCache.new, hmGet, List.find?_nil, Option.map_none,
    alwaysFailingRemote]
  refine ⟨rfl, rfl, rfl, rfl, rfl⟩

/-- Unfolding of a successful validation: the plan is non-empty, the
depth-first cycle check found no cycle, and no dependency id dangles. -/
theorem validate_plan_ok {s : List task.Subtask} (h : validate_plan s = .ok ()) :
    s ≠ [] ∧ checkCycles s s [] [] = false ∧ findDangling s = none := by
  unfold validate_plan at h
  split at h
  · exact absurd h (by simp)
  · split at h
    · exact absurd h (by simp)
    · split at h
      · exact absurd h (by simp)
      · refine ⟨?_, ?_, ?_⟩ <;> simp_all

/-- A wire task with two mutually dependent subtasks, as a remote response. -/
def cyclicRemoteTask : Types.Task :=
  { id := "remote-task", objective := "X",
    subtasks :=
      [ { id := "A", objective := "a", required_agent := "Scrape",
          input_keys := [], output_keys := ["o1"], status := .Pending,
          dependencies := ["B"] },
        { id := "B", objective := "b", required_agent := "Data",
          input_keys := [], output_keys := ["o2"], status := .Pending,
          dependencies := ["A"] } ],
    metadata := { created_at := none, planner := none, cached := false,
                  version := none } }

/-- Claim C4, counterexample: `decompose_task` in `Hybrid` mode returns the
remote client's response unvalidated — with a remote oracle answering the
cyclic `A ↔ B` plan, the call succeeds and the returned task fails the
facade's own `validate_plan`, refuting "every Task returned successfully by
decompose_task is structurally valid". -/
theorem decompose_task_unvalidated_remote_C4_cex :
    (decompose_task .Hybrid true 100 (fun _ _ => .ok cyclicRemoteTask) "X" []
        (fun n => "u" ++ toString n) 5).result.toOption.map
      (fun t => validate_plan t.subtasks)
      = some (.error "Generated plan has circular dependencies") ∧
    (decompose_task .Hybrid true 100 (fun _ _ => .ok cyclicRemoteTask) "X" []
        (fun n => "u" ++ toString n) 5).remote_calls = 1 := by
  decide

/-- The spec's synthetic cyclic plan: `A` depends on `B` and `B` on `A`. -/
def cyclicPlan : List task.Subtask :=
  [ { id := "A", objective := "a", required_agent := .Scrape,
      dependencies := ["B"], input_keys := [], output_key := "o1" },
    { id := "B", objective := "b", required_agent := .Data,
      dependencies := ["A"], input_keys := [], output_key := "o2" } ]

/-- Claim C4, amended: every task returned by the LOCAL planning path — and
hence by `decompose_task` in `Local` mode — passes `validate_plan` (at least
one subtask, the depth-first cycle check reports no cycle, every dependency id
names a subtask of the plan), and the synthetic `A ↔ B` plan is rejected by
validation with an error; tasks obtained from the remote client are returned
without validation. -/
theorem local_planning_validated_C4 :
    (∀ (objective : String) (context_keys : List String)
        (newId : Nat → String) (now : Nat) (t : task.Task),
      local_planning objective context_keys newId now = .ok t →
        validate_plan t.subtasks = .ok () ∧ t.subtasks ≠ [] ∧
        checkCycles t.subtasks t.subtasks [] [] = false ∧
        findDangling t.subtasks = none) ∧
    (∀ (ec : Bool) (cap : Nat)
        (remote : String → List String → Except Types.PlannerError Types.Task)
        (objective : String) (context_keys : List String)
        (newId : Nat → String) (now : Nat) (t : task.Task),
      (decompose_task .Local ec cap remote objective context_keys
          newId now).result = .ok t →
        validate_plan t.subtasks = .ok ()) ∧
    validate_plan cyclicPlan = .error "Generated plan has circular dependencies"
    := by
  have hloc : ∀ (objective : String) (context_keys : List String)
      (newId : Nat → String) (now : Nat) (t : task.Task),
      local_planning objective context_keys newId now = .ok t →
        validate_plan t.subtasks = .ok () ∧ t.subtasks ≠ [] ∧
        checkCycles t.subtasks t.subtasks [] [] = false ∧
        findDangling t.subtasks = none := by
    intro objective context_keys newId now t h
    unfold local_planning at h
    dsimp only at h
    split at h
    · exact absurd h (by simp)
    · rename_i hv
      obtain ⟨rfl⟩ : t = _ := by simpa using h.symm
      have hpieces := validate_plan_ok hv
      exact ⟨hv, hpieces.1, hpieces.2.1, hpieces.2.2⟩
  refine ⟨hloc, ?_, by decide⟩
  intro ec cap remote objective context_keys newId now t h
  unfold decompose_task at h
  cases ec <;> simp [PlanCache.get, PlanCache.new, hmGet] at h <;>
    exact (hloc objective context_keys newId now t h).1

/-- The single subtask the local planner produces for the objective "hello". -/
def helloSubtask : task.Subtask :=
  ⟨"u1", "hello", .Custom "General", [], [], "result"⟩

/-- The task the local planner produces for the objective "hello" at time 7
with the id supply `n ↦ "u" ++ n`. -/
def helloTask : task.Task :=
  ⟨"u0", "hello", [helloSubtask], .Pending, 7⟩

/-- Witness for claim C4's amended theorem: the concrete call
`local_planning "hello" [] (n ↦ "u" ++ n) 7` succeeds with `helloTask`, and
the theorem applied there yields a validated, non-empty plan. -/
theorem local_planning_validated_C4_witness :
    validate_plan helloTask.subtasks = .ok () ∧ helloTask.subtasks ≠ [] := by
  have h := local_planning_validated_C4.1 "hello" []
    (fun n => "u" ++ toString n) 7 helloTask (by decide)
  exact ⟨h.1, h.2.1⟩

/-- Characterization of a passing objective validation. -/
theorem validate_objective_ok_iff (objective : String) :
    DataSanitizer.validate_objective objective = .ok () ↔
      objective.utf8ByteSize ≠ 0 ∧ objective.utf8ByteSize ≤ 1000 := by
  unfold DataSanitizer.validate_objective
  split
  · rename_i h0
    simp [h0]
  · split
    · rename_i h0 h1
      simp [h0]
      omega
    · rename_i h0 h1
      simp [h0]
      omega

/-- Characterization of the passing per-key loop. -/
theorem validate_keys_loop_ok_iff (keys : List String) :
    DataSanitizer.validate_keys_loop keys = .ok () ↔
      ∀ k ∈ keys, k.utf8ByteSize ≠ 0 ∧ k.utf8ByteSize ≤ 100 := by
  induction keys with
  | nil => simp [DataSanitizer.validate_keys_loop]
  | cons k rest ih =>
    unfold DataSanitizer.validate_keys_loop
    split
    · rename_i h0
      simp [h0]
    · split
      · rename_i h0 h1
        simp
        intro hne hle
        omega
      · rename_i h0 h1
        simp [ih, h0]
        omega

/-- Characterization of a passing context-key validation. -/
theorem validate_context_keys_ok_iff (keys : List String) :
    DataSanitizer.validate_context_keys keys = .ok () ↔
      keys.length ≤ 100 ∧ ∀ k ∈ keys, k.utf8ByteSize ≠ 0 ∧ k.utf8ByteSize ≤ 100 := by
  unfold DataSanitizer.validate_context_keys
  split
  · rename_i h0
    simp
    omega
  · rename_i h0
    rw [validate_keys_loop_ok_iff]
    simp
    omega

/-- Claim C6: `call_lavague` — the validated decompose operation wrapping the
remote client — fails fast on every invalid input (empty or over-1000-byte
objective, more than 100 context keys, an empty or over-100-byte key) WITHOUT
invoking the client (the invocation flag is `false`, so no network request is
made), and on every other input both validators pass. -/
theorem call_lavague_validation_C6 :
    ∀ (client : String → List String → Except String Types.Task)
      (objective : String) (keys : List String) (now : Nat),
      ((objective.utf8ByteSize = 0 ∨ objective.utf8ByteSize > 1000 ∨
          keys.length > 100 ∨
          (∃ k ∈ keys, k.utf8ByteSize = 0 ∨ k.utf8ByteSize > 100)) →
        (call_lavague client objective keys now).2 = false ∧
        (∃ e, (call_lavague client objective keys now).1 = .error e)) ∧
      (¬ (objective.utf8ByteSize = 0 ∨ objective.utf8ByteSize > 1000 ∨
          keys.length > 100 ∨
          (∃ k ∈ keys, k.utf8ByteSize = 0 ∨ k.utf8ByteSize > 100)) →
        DataSanitizer.validate_objective objective = .ok () ∧
        DataSanitizer.validate_context_keys keys = .ok ()) := by
  intro client objective keys now
  constructor
  · intro hbad
    cases h1 : DataSanitizer.validate_objective objective with
    | error e =>
      unfold call_lavague
      rw [h1]
      exact ⟨rfl, _, rfl⟩
    | ok u =>
      cases u
      have hobj := (validate_objective_ok_iff objective).mp h1
      cases h2 : DataSanitizer.validate_context_keys keys with
      | error e =>
        unfold call_lavague
        rw [h1, h2]
        exact ⟨rfl, _, rfl⟩
      | ok u =>
        cases u
        have hkeys := (validate_context_keys_ok_iff keys).mp h2
        exfalso
        rcases hbad with h | h | h | ⟨k, hk, h⟩
        · exact hobj.1 h
        · omega
        · omega
        · rcases hkeys.2 k hk with ⟨hne, hle⟩
          rcases h with h | h
          · exact hne h
          · omega
  · intro hgood
    push_neg at hgood
    obtain ⟨g1, g2, g3, g4⟩ := hgood
    refine ⟨(validate_objective_ok_iff objective).mpr ⟨g1, by omega⟩,
      (validate_context_keys_ok_iff keys).mpr ⟨by omega, ?_⟩⟩
    intro k hk
    have := g4 k hk
    exact ⟨this.1, by omega⟩

/-- Witness for claim C6: with an empty objective the call errs without
invoking the client, and with a well-formed input both validators pass. -/
theorem call_lavague_validation_C6_witness :
    ((call_lavague (fun _ _ => .error "network") "" [] 0).2 = false ∧
      (∃ e, (call_lavague (fun _ _ => .error "network") "" [] 0).1 = .error e)) ∧
    (DataSanitizer.validate_objective "plan a trip" = .ok () ∧
      DataSanitizer.validate_context_keys ["budget"] = .ok ()) := by
  constructor
  · exact (call_lavague_validation_C6 (fun _ _ => .error "network") "" [] 0).1
      (by decide)
  · exact (call_lavague_validation_C6 (fun _ _ => .error "network")
      "plan a trip" ["budget"] 0).2 (by decide)

/-- The retry key of a trace, as formatted by `flush_pending_traces`. -/
def traceKey (tr : Types.ExecutionTrace) : String :=
  tr.task_id ++ "-" ++ tr.subtask_id

/-- The sample execution trace of the retry-to-disk scenario. -/
def sampleTrace : Types.ExecutionTrace :=
  { task_id := "task1", subtask_id := "sub1", agent_type := "Test",
    status := .Completed, timestamp := "t0", outputs := none, error := none,
    duration_ms := 100 }

/-- Feedback configuration with `max_retries = 2`. -/
def feedbackCfg2 : FeedbackConfig :=
  { feedback_dir := "./feedback", batch_enabled := true, batch_size := 1,
    flush_interval_seconds := 1, max_retries := 2 }

/-- A remote client whose feedback submission always fails. -/
def failingFeedbackClient :
    Types.ExecutionTrace → Except Types.PlannerError Unit :=
  fun _ => .error (.ApiError "Test error")

/-- Claim C7, counterexample: with `max_retries = 2` and an always-failing
client, one submitted trace is re-queued by the first flush and moved to the
failed store by the second, with exactly one file
`failed_trace_task1-sub1.json`, `failed_count = 1`, `pending_count = 0` — but
the trace's key is NOT removed from the retry counter map as the claim
states: it remains bound to 2. -/
theorem feedback_retry_key_retained_C7_cex :
    (flush_pending_traces failingFeedbackClient feedbackCfg2
        { pending := [sampleTrace], retry_counts := [], failed := [],
          files := [] }).pending = [sampleTrace] ∧
    (flush_pending_traces failingFeedbackClient feedbackCfg2
        { pending := [sampleTrace], retry_counts := [], failed := [],
          files := [] }).retry_counts = [("task1-sub1", 1)] ∧
    (flush_pending_traces failingFeedbackClient feedbackCfg2
        (flush_pending_traces failingFeedbackClient feedbackCfg2
          { pending := [sampleTrace], retry_counts := [], failed := [],
            files := [] })).pending = [] ∧
    (flush_pending_traces failingFeedbackClient feedbackCfg2
        (flush_pending_traces failingFeedbackClient feedbackCfg2
          { pending := [sampleTrace], retry_counts := [], failed := [],
            files := [] })).failed = [sampleTrace] ∧
    (flush_pending_traces failingFeedbackClient feedbackCfg2
        (flush_pending_traces failingFeedbackClient feedbackCfg2
          { pending := [sampleTrace], retry_counts := [], failed := [],
            files := [] })).files
      = [("failed_trace_task1-sub1.json", sampleTrace)] ∧
    get_metrics (flush_pending_traces failingFeedbackClient feedbackCfg2
        (flush_pending_traces failingFeedbackClient feedbackCfg2
          { pending := [sampleTrace], retry_counts := [], failed := [],
            files := [] }))
      = { pending_count := 0, failed_count := 1, retry_counts := 1 } ∧
    rcLookup (flush_pending_traces failingFeedbackClient feedbackCfg2
        (flush_pending_traces failingFeedbackClient feedbackCfg2
          { pending := [sampleTrace], retry_counts := [], failed := [],
            files := [] })).retry_counts "task1-sub1" = some 2 := by
  decide

/-- Looking up the key just written by `rcInsert` returns the new count. -/
theorem rcLookup_rcInsert_self (m : List (String × Nat)) (k : String) (v : Nat) :
    rcLookup (rcInsert m k v) k = some v := by
  induction m with
  | nil => simp [rcLookup, rcInsert]
  | cons e rest ih =>
    by_cases h : e.1 = k
    · simp only [rcInsert, List.filter_cons, h] at ih ⊢
      simpa using ih
    · simp only [rcInsert, List.filter_cons, h] at ih ⊢
      simp only [rcLookup, List.find?, h] at ih ⊢
      simp_all

/-- Claim C7, amended: in a flush with one pending trace and a failing
client, a trace whose incremented retry count is below `max_retries` is
re-queued onto the pending list; once the count reaches `max_retries` the
trace is moved to the failed store and written to disk as
`failed_trace_{task_id}-{subtask_id}.json` — but its key REMAINS in the retry
counter map, bound to the final count (the map is only pruned on successful
submission); with `max_retries = 2` and an always-failing client one trace
yields exactly one file, `failed_count = 1` and `pending_count = 0`. -/
theorem flush_retry_behavior_C7
    (client : Types.ExecutionTrace → Except Types.PlannerError Unit)
    (config : FeedbackConfig) (st : FeedbackState)
    (tr : Types.ExecutionTrace) (e : Types.PlannerError)
    (hfail : client tr = .error e) (hpend : st.pending = [tr]) :
    ((rcLookup st.retry_counts (traceKey tr)).getD 0 + 1 < config.max_retries →
      (flush_pending_traces client config st).pending = [tr] ∧
      (flush_pending_traces client config st).failed = st.failed ∧
      (flush_pending_traces client config st).files = st.files ∧
      rcLookup (flush_pending_traces client config st).retry_counts
        (traceKey tr)
        = some ((rcLookup st.retry_counts (traceKey tr)).getD 0 + 1)) ∧
    ((rcLookup st.retry_counts (traceKey tr)).getD 0 + 1 ≥ config.max_retries →
      (flush_pending_traces client config st).pending = [] ∧
      (flush_pending_traces client config st).failed = st.failed ++ [tr] ∧
      (flush_pending_traces client config st).files
        = fsWrite st.files ("failed_trace_" ++ traceKey tr ++ ".json") tr ∧
      rcLookup (flush_pending_traces client config st).retry_counts
        (traceKey tr)
        = some ((rcLookup st.retry_counts (traceKey tr)).getD 0 + 1)) := by
  unfold flush_pending_traces
  rw [hpend]
  simp only [List.foldl_cons, List.foldl_nil, hfail, traceKey]
  constructor
  · intro hlt
    rw [if_pos hlt]
    exact ⟨rfl, rfl, rfl, rcLookup_rcInsert_self _ _ _⟩
  · intro hge
    rw [if_neg (by omega)]
    exact ⟨rfl, rfl, rfl, rcLookup_rcInsert_self _ _ _⟩

/-- Witness for claim C7's amended theorem, at the second flush of the
concrete scenario (count already 1, `max_retries = 2`). -/
theorem flush_retry_behavior_C7_witness :
    (flush_pending_traces failingFeedbackClient feedbackCfg2
        { pending := [sampleTrace], retry_counts := [("task1-sub1", 1)],
          failed := [], files := [] }).pending = [] ∧
    (flush_pending_traces failingFeedbackClient feedbackCfg2
        { pending := [sampleTrace], retry_counts := [("task1-sub1", 1)],
          failed := [], files := [] }).failed = [sampleTrace] ∧
    rcLookup (flush_pending_traces failingFeedbackClient feedbackCfg2
        { pending := [sampleTrace], retry_counts := [("task1-sub1", 1)],
          failed := [], files := [] }).retry_counts (traceKey sampleTrace)
      = some 2 := by
  have h := (flush_retry_behavior_C7 failingFeedbackClient feedbackCfg2
    { pending := [sampleTrace], retry_counts := [("task1-sub1", 1)],
      failed := [], files := [] }
    sampleTrace (.ApiError "Test error") (by decide) (by decide)).2 (by decide)
  refine ⟨h.1, by decide, by decide⟩

/-- Claim C10: `PlanCache::new(0)` clamps the capacity to 1, and the
degenerate cache still accepts an insert, holding exactly that one entry and
serving it back. -/
theorem plan_cache_zero_capacity_C10 :
    (PlanCache.new 0).capacity = 1 ∧
    (∀ (objective : String) (t : Types.Task) (now : Nat),
      ((PlanCache.new 0).insert objective t now).len = 1 ∧
      ((PlanCache.new 0).insert objective t now).get objective = some t) := by
  refine ⟨rfl, ?_⟩
  intro objective t now
  constructor
  · simp [PlanCache.new, PlanCache.insert, PlanCache.len, hmInsert, hmRemove,
      hmContains]
  · simp [PlanCache.new, PlanCache.insert, PlanCache.get, hmInsert, hmRemove,
      hmContains, hmGet]

/-- The key list of a cons. -/
theorem hmKeys_cons (e : String × Types.Task × Nat) (rest : CacheEntries) :
    hmKeys (e :: rest) = e.1 :: hmKeys rest := rfl

/-- Membership in the modelled `HashMap` through its key list. -/
theorem hmContains_iff_mem (m : CacheEntries) (k : String) :
    hmContains m k = true ↔ k ∈ hmKeys m := by
  simp [hmContains, hmKeys, List.any_eq_true, List.mem_map, beq_iff_eq]

/-- Keys of a `HashMap` removal: the key list is filtered. -/
theorem hmKeys_hmRemove (m : CacheEntries) (k : String) :
    hmKeys (hmRemove m k) = (hmKeys m).filter (fun x => !(x == k)) := by
  induction m with
  | nil => rfl
  | cons e rest ih =>
    by_cases h : e.1 = k <;>
      simp [hmRemove, hmKeys, List.filter_cons, h] at ih ⊢ <;>
      simpa [hmRemove, hmKeys] using ih

/-- Removing an absent key changes nothing. -/
theorem hmRemove_of_not_mem {m : CacheEntries} {k : String}
    (h : k ∉ hmKeys m) : hmRemove m k = m := by
  induction m with
  | nil => rfl
  | cons e rest ih =>
    rw [hmKeys_cons] at h
    have h1 : e.1 ≠ k := fun he => h (he ▸ List.mem_cons_self _ _)
    have h2 : k ∉ hmKeys rest := fun hk => h (List.mem_cons_of_mem _ hk)
    simp [hmRemove, List.filter_cons, h1]
    simpa [hmRemove] using ih h2

/-- Removing a present key from a duplicate-free map drops exactly one entry. -/
theorem hmRemove_length_of_mem {m : CacheEntries} {k : String}
    (hnd : (hmKeys m).Nodup) (hmem : k ∈ hmKeys m) :
    (hmRemove m k).length + 1 = m.length := by
  induction m with
  | nil => simp [hmKeys] at hmem
  | cons e rest ih =>
    rw [hmKeys_cons] at hnd hmem
    by_cases h : e.1 = k
    · subst h
      have hrm : hmRemove rest e.1 = rest :=
        hmRemove_of_not_mem (List.nodup_cons.mp hnd).1
      simp [hmRemove, List.filter_cons]
      simpa [hmRemove] using congrArg List.length hrm
    · have hk : k ∈ hmKeys rest := by
        rcases List.mem_cons.mp hmem with h1 | h1
        · exact absurd h1.symm h
        · exact h1
      have := ih (List.nodup_cons.mp hnd).2 hk
      simp [hmRemove, List.filter_cons, h]
      simpa [hmRemove] using this

/-- `insert` never changes the capacity. -/
theorem PlanCache.insert_capacity (c : PlanCache) (obj : String)
    (t : Types.Task) (now : Nat) :
    (c.insert obj t now).capacity = c.capacity := by
  unfold PlanCache.insert
  dsimp only
  split
  · split <;> rfl
  · rfl

/-- Shape of an insert into a full cache under a fresh key: the head of
`keys_order` is evicted, everything else moves up, and the new key goes to the
back — in both the key list of the map and `keys_order`; the size is
unchanged. -/
theorem PlanCache.insert_full_new {c : PlanCache} (h : c.WF)
    {obj : String} (t : Types.Task) (now : Nat)
    (hfull : c.cache.length ≥ c.capacity)
    (hnew : hmContains c.cache obj = false) :
    (c.insert obj t now).keys_order = c.keys_order.tail ++ [obj] ∧
    hmKeys (c.insert obj t now).cache = c.keys_order.tail ++ [obj] ∧
    (c.insert obj t now).cache.length = c.cache.length := by
  obtain ⟨hkeys, hnd, hcap, hlen⟩ := h
  have hlenk : c.keys_order.length = c.cache.length := by
    rw [← hkeys]; simp [hmKeys]
  have hobj : obj ∉ hmKeys c.cache := by
    intro hm
    rw [(hmContains_iff_mem c.cache obj).mpr hm] at hnew
    exact absurd hnew (by decide)
  cases hko : c.keys_order with
  | nil =>
    exfalso
    rw [hko] at hlenk
    simp at hlenk
    omega
  | cons k0 tl =>
    have hkeys2 : hmKeys c.cache = k0 :: tl := by rw [hkeys, hko]
    have hnd2 : k0 ∉ tl ∧ tl.Nodup := by
      have := hko ▸ hnd
      exact List.nodup_cons.mp this
    have hobj2 : obj ∉ (k0 :: tl) := hkeys2 ▸ hobj
    have hk0mem : k0 ∈ hmKeys c.cache := by
      rw [hkeys2]; exact List.mem_cons_self _ _
    -- keys of the map after evicting k0
    have hkeysRem : hmKeys (hmRemove c.cache k0) = tl := by
      rw [hmKeys_hmRemove, hkeys2, List.filter_cons]
      simp only [beq_self_eq_true, Bool.not_true]
      rw [if_neg (by decide)]
      exact List.filter_eq_self.mpr (fun x hx => by
        simp [beq_iff_eq]
        intro hxk
        exact hnd2.1 (hxk ▸ hx))
    have hobjRem : obj ∉ hmKeys (hmRemove c.cache k0) := by
      rw [hkeysRem]
      exact fun hm => hobj2 (List.mem_cons_of_mem _ hm)
    have hremlen : (hmRemove c.cache k0).length + 1 = c.cache.length :=
      hmRemove_length_of_mem (hkeys ▸ hnd) hk0mem
    -- now unfold the insert
    unfold PlanCache.insert
    dsimp only
    rw [if_pos ⟨hfull, hnew⟩, hko]
    dsimp only [List.head?, List.tail]
    refine ⟨?_, ?_, ?_⟩
    · simp [List.erase_of_not_mem
        (fun hm => hobj2 (List.mem_cons_of_mem _ hm))]
    · simp only [hmInsert, hmRemove_of_not_mem hobjRem]
      rw [hmKeys, List.map_append]
      rw [← hmKeys, hkeysRem]
      rfl
    · simp only [hmInsert, hmRemove_of_not_mem hobjRem, List.length_append]
      simpa using hremlen

/-- Shape of a re-insert of an existing key: nothing is evicted, the key moves
to the newest position in both lists, and the size is unchanged. -/
theorem PlanCache.insert_existing {c : PlanCache} (h : c.WF)
    {obj : String} (t : Types.Task) (now : Nat)
    (hmem : hmContains c.cache obj = true) :
    (c.insert obj t now).keys_order = c.keys_order.erase obj ++ [obj] ∧
    hmKeys (c.insert obj t now).cache = c.keys_order.erase obj ++ [obj] ∧
    (c.insert obj t now).cache.length = c.cache.length := by
  obtain ⟨hkeys, hnd, hcap, hlen⟩ := h
  have hobjmem : obj ∈ hmKeys c.cache := (hmContains_iff_mem _ _).mp hmem
  have herase : c.keys_order.erase obj
      = c.keys_order.filter (fun x => !(x == obj)) := by
    rw [List.Nodup.erase_eq_filter hnd]
    exact List.filter_congr (fun x hx => by
      by_cases hxo : x = obj <;> simp [hxo, bne])
  have hcond : ¬ (c.cache.length ≥ c.capacity ∧ hmContains c.cache obj = false) := by
    rintro ⟨_, hc⟩
    rw [hmem] at hc
    exact absurd hc (by decide)
  unfold PlanCache.insert
  dsimp only
  rw [if_neg hcond]
  refine ⟨rfl, ?_, ?_⟩
  · simp only [hmInsert]
    rw [hmKeys, List.map_append, ← hmKeys, hmKeys_hmRemove, hkeys, ← herase]
    rfl
  · simp only [hmInsert, List.length_append, List.length_singleton]
    exact hmRemove_length_of_mem (hkeys ▸ hnd) hobjmem

/-- Shape of an insert of a fresh key into a cache with room: nothing is
evicted and the key goes to the back of both lists. -/
theorem PlanCache.insert_fresh_room {c : PlanCache} (h : c.WF)
    {obj : String} (t : Types.Task) (now : Nat)
    (hroom : c.cache.length < c.capacity)
    (hnew : hmContains c.cache obj = false) :
    (c.insert obj t now).keys_order = c.keys_order ++ [obj] ∧
    hmKeys (c.insert obj t now).cache = c.keys_order ++ [obj] ∧
    (c.insert obj t now).cache.length = c.cache.length + 1 := by
  obtain ⟨hkeys, hnd, hcap, hlen⟩ := h
  have hobj : obj ∉ hmKeys c.cache := by
    intro hm
    rw [(hmContains_iff_mem c.cache obj).mpr hm] at hnew
    exact absurd hnew (by decide)
  have hcond : ¬ (c.cache.length ≥ c.capacity ∧ hmContains c.cache obj = false) := by
    rintro ⟨hge, _⟩
    omega
  unfold PlanCache.insert
  dsimp only
  rw [if_neg hcond]
  have hkorder : obj ∉ c.keys_order := hkeys ▸ hobj
  refine ⟨by rw [List.erase_of_not_mem hkorder], ?_, ?_⟩
  · simp only [hmInsert, hmRemove_of_not_mem hobj]
    rw [hmKeys, List.map_append, ← hmKeys, hkeys]
    rfl
  · simp only [hmInsert, hmRemove_of_not_mem hobj, List.length_append]
    rfl

/-- `insert` preserves well-formedness. -/
theorem PlanCache.insert_WF {c : PlanCache} (h : c.WF)
    (obj : String) (t : Types.Task) (now : Nat) :
    (c.insert obj t now).WF := by
  have hcapEq := PlanCache.insert_capacity c obj t now
  obtain ⟨hkeys, hnd, hcap, hlen⟩ := h
  by_cases hmem : hmContains c.cache obj = true
  · obtain ⟨h1, h2, h3⟩ :=
      PlanCache.insert_existing ⟨hkeys, hnd, hcap, hlen⟩ t now hmem
    have hndE : (c.keys_order.erase obj).Nodup := hnd.erase obj
    have hnotE : obj ∉ c.keys_order.erase obj := fun hmm =>
      (List.Nodup.mem_erase_iff hnd).mp hmm |>.1 rfl
    refine ⟨by rw [h1, h2], ?_, by omega, by omega⟩
    rw [h1]
    simp [List.nodup_append, hndE, hnotE]
  · have hmem2 : hmContains c.cache obj = false := by
      cases hcb : hmContains c.cache obj
      · rfl
      · exact absurd hcb hmem
    by_cases hfull : c.cache.length ≥ c.capacity
    · obtain ⟨h1, h2, h3⟩ :=
        PlanCache.insert_full_new ⟨hkeys, hnd, hcap, hlen⟩ t now hfull hmem2
      have hndT : c.keys_order.tail.Nodup := by
        cases hko : c.keys_order with
        | nil => simp
        | cons k0 tl =>
          have := hko ▸ hnd
          exact (List.nodup_cons.mp this).2
      have hobj : obj ∉ c.keys_order := by
        intro hmm
        rw [(hmContains_iff_mem c.cache obj).mpr (hkeys ▸ hmm)] at hmem2
        exact absurd hmem2 (by decide)
      have hnotT : obj ∉ c.keys_order.tail := fun hmm =>
        hobj (List.mem_of_mem_tail hmm)
      refine ⟨by rw [h1, h2], ?_, by omega, by omega⟩
      rw [h1]
      simp [List.nodup_append, hndT, hnotT]
    · have hroom : c.cache.length < c.capacity := by omega
      obtain ⟨h1, h2, h3⟩ :=
        PlanCache.insert_fresh_room ⟨hkeys, hnd, hcap, hlen⟩ t now hroom hmem2
      have hobj : obj ∉ c.keys_order := by
        intro hmm
        rw [(hmContains_iff_mem c.cache obj).mpr (hkeys ▸ hmm)] at hmem2
        exact absurd hmem2 (by decide)
      refine ⟨by rw [h1, h2], ?_, by omega, by omega⟩
      rw [h1]
      simp [List.nodup_append, hnd, hobj]

/-- Keys of a filtered map, when the key-level predicate agrees with the
entry-level one on every entry. -/
theorem hmKeys_filter_eq (m : CacheEntries) (q : String × Types.Task × Nat → Bool)
    (p : String → Bool) (hpq : ∀ e ∈ m, p e.1 = q e) :
    hmKeys (m.filter q) = (hmKeys m).filter p := by
  induction m with
  | nil => rfl
  | cons e rest ih =>
    have he := hpq e (List.mem_cons_self _ _)
    have ihr := ih (fun x hx => hpq x (List.mem_cons_of_mem _ hx))
    cases hq : q e
    · have hp : p e.1 = false := he.trans hq
      simp [List.filter_cons, hmKeys_cons, hq, hp, ihr]
    · have hp : p e.1 = true := he.trans hq
      simp [List.filter_cons, hmKeys_cons, hq, hp, ihr]

/-- `new` is well-formed. -/
theorem PlanCache.new_WF (capacity : Nat) : (PlanCache.new capacity).WF :=
  ⟨rfl, List.nodup_nil, Nat.le_max_right capacity 1, by simp [PlanCache.new]⟩

/-- `clear` preserves well-formedness. -/
theorem PlanCache.clear_WF {c : PlanCache} (h : c.WF) : c.clear.WF := by
  obtain ⟨_, _, hcap, _⟩ := h
  exact ⟨rfl, List.nodup_nil, hcap, by simp [PlanCache.clear]⟩

/-- `clear_old_entries` preserves well-formedness. -/
theorem PlanCache.clear_old_WF {c : PlanCache} (h : c.WF)
    (max_age now : Nat) : (c.clear_old_entries max_age now).WF := by
  obtain ⟨hkeys, hnd, hcap, hlen⟩ := h
  have hndm : (hmKeys c.cache).Nodup := hkeys ▸ hnd
  have hpq : ∀ e ∈ c.cache,
      (fun k => !(((c.cache.filter
          (fun e2 => decide (now - e2.2.2 > max_age))).map
            (fun e2 => e2.1)).contains k)) e.1
        = (fun e2 => !(decide (now - e2.2.2 > max_age))) e := by
    intro e he
    dsimp only
    congr 1
    cases hold : decide (now - e.2.2 > max_age) with
    | true =>
      have hm : e.1 ∈ (c.cache.filter
          (fun e2 => decide (now - e2.2.2 > max_age))).map (fun e2 => e2.1) :=
        List.mem_map.mpr ⟨e, List.mem_filter.mpr ⟨he, hold⟩, rfl⟩
      simpa [List.elem_iff] using hm
    | false =>
      rw [Bool.eq_false_iff]
      intro hcontains
      have hmm : e.1 ∈ (c.cache.filter
          (fun e2 => decide (now - e2.2.2 > max_age))).map (fun e2 => e2.1) := by
        simpa [List.elem_iff] using hcontains
      obtain ⟨e2, he2, heq⟩ := List.mem_map.mp hmm
      obtain ⟨he2m, he2old⟩ := List.mem_filter.mp he2
      have he2e : e2 = e := by
        have hinj := List.inj_on_of_nodup_map (f := fun x : String × Types.Task × Nat => x.1)
          (l := c.cache) (by simpa [hmKeys] using hndm)
        exact hinj he2m he heq
      rw [he2e, hold] at he2old
      exact absurd he2old (by decide)
  refine ⟨?_, ?_, hcap, ?_⟩
  · show hmKeys (c.cache.filter _) = _
    rw [hmKeys_filter_eq c.cache
      (fun e2 => !(decide (now - e2.2.2 > max_age)))
      (fun k => !(((c.cache.filter
          (fun e2 => decide (now - e2.2.2 > max_age))).map
            (fun e2 => e2.1)).contains k)) hpq, hkeys]
    rfl
  · exact hnd.filter _
  · calc (c.clear_old_entries max_age now).cache.length
        ≤ c.cache.length := List.length_filter_le _ _
      _ ≤ c.capacity := hlen

/-- `applyOp` preserves well-formedness. -/
theorem PlanCache.applyOp_WF {c : PlanCache} (h : c.WF) (op : CacheOp) :
    (c.applyOp op).WF := by
  cases op with
  | ins objective t now => exact PlanCache.insert_WF h objective t now
  | clearOld max_age now => exact PlanCache.clear_old_WF h max_age now
  | clearAll => exact PlanCache.clear_WF h

/-- No operation changes the capacity. -/
theorem PlanCache.applyOp_capacity (c : PlanCache) (op : CacheOp) :
    (c.applyOp op).capacity = c.capacity := by
  cases op with
  | ins objective t now => exact PlanCache.insert_capacity c objective t now
  | clearOld max_age now => rfl
  | clearAll => rfl

/-- Running any operation sequence preserves well-formedness and capacity. -/
theorem PlanCache.run_WF {c : PlanCache} (h : c.WF) (ops : List CacheOp) :
    (c.run ops).WF ∧ (c.run ops).capacity = c.capacity := by
  induction ops generalizing c with
  | nil => exact ⟨h, rfl⟩
  | cons op rest ih =>
    obtain ⟨hwf, hcapr⟩ := ih (PlanCache.applyOp_WF h op)
    refine ⟨hwf, ?_⟩
    calc ((c.applyOp op).run rest).capacity
        = (c.applyOp op).capacity := hcapr
      _ = c.capacity := PlanCache.applyOp_capacity c op

/-- A placeholder cached task for concrete cache runs. -/
def dummyTask : Types.Task :=
  { id := "t", objective := "o", subtasks := [],
    metadata := { created_at := none, planner := none, cached := false,
                  version := none } }

/-- A second placeholder task, distinguishable from `dummyTask`. -/
def dummyTask2 : Types.Task :=
  { dummyTask with id := "t2" }

/-- Claim C9: the plan cache keeps `len ≤ capacity` across every operation
sequence; an insert into a full cache under a fresh key evicts exactly the
least-recently-inserted key (the head of `keys_order`) while the key set
otherwise only gains the new key and the size stays put; re-inserting an
existing key evicts nothing and moves that key to the newest position; and in
the concrete capacity-2 run inserting three distinct keys evicts exactly the
first one. -/
theorem plan_cache_invariants_C9 :
    (∀ (capacity : Nat) (ops : List CacheOp),
      ((PlanCache.new capacity).run ops).len ≤ (PlanCache.new capacity).capacity) ∧
    (∀ (c : PlanCache), c.WF → ∀ (obj : String) (t : Types.Task) (now : Nat),
      c.cache.length ≥ c.capacity → hmContains c.cache obj = false →
        (c.insert obj t now).keys_order = c.keys_order.tail ++ [obj] ∧
        hmKeys (c.insert obj t now).cache = c.keys_order.tail ++ [obj] ∧
        (c.insert obj t now).len = c.len ∧
        (∀ k0, c.keys_order.head? = some k0 →
          k0 ∉ hmKeys (c.insert obj t now).cache)) ∧
    (∀ (c : PlanCache), c.WF → ∀ (obj : String) (t : Types.Task) (now : Nat),
      hmContains c.cache obj = true →
        (c.insert obj t now).len = c.len ∧
        (∀ k, k ∈ hmKeys (c.insert obj t now).cache ↔ k ∈ hmKeys c.cache) ∧
        (c.insert obj t now).keys_order = c.keys_order.erase obj ++ [obj] ∧
        (c.insert obj t now).keys_order.getLast? = some obj) ∧
    ((((PlanCache.new 2).insert "a" dummyTask 0).insert "b" dummyTask
        1).insert "c" dummyTask 2).get "a" = none ∧
    ((((PlanCache.new 2).insert "a" dummyTask 0).insert "b" dummyTask
        1).insert "c" dummyTask 2).get "b" = some dummyTask ∧
    ((((PlanCache.new 2).insert "a" dummyTask 0).insert "b" dummyTask
        1).insert "c" dummyTask 2).get "c" = some dummyTask ∧
    ((((PlanCache.new 2).insert "a" dummyTask 0).insert "b" dummyTask
        1).insert "c" dummyTask 2).keys_order = ["b", "c"] ∧
    ((((PlanCache.new 2).insert "a" dummyTask 0).insert "b" dummyTask
        1).insert "a" dummyTask2 3).len = 2 ∧
    ((((PlanCache.new 2).insert "a" dummyTask 0).insert "b" dummyTask
        1).insert "a" dummyTask2 3).keys_order = ["b", "a"] ∧
    ((((PlanCache.new 2).insert "a" dummyTask 0).insert "b" dummyTask
        1).insert "a" dummyTask2 3).get "a" = some dummyTask2 ∧
    ((((PlanCache.new 2).insert "a" dummyTask 0).insert "b" dummyTask
        1).insert "a" dummyTask2 3).get "b" = some dummyTask := by
  refine ⟨?_, ?_, ?_, by decide, by decide, by decide, by decide, by decide,
    by decide, by decide, by decide⟩
  · intro capacity ops
    obtain ⟨⟨_, _, _, hlen⟩, hcapeq⟩ :=
      PlanCache.run_WF (PlanCache.new_WF capacity) ops
    show ((PlanCache.new capacity).run ops).cache.length ≤ _
    omega
  · intro c h obj t now hfull hnew
    obtain ⟨h1, h2, h3⟩ := PlanCache.insert_full_new h t now hfull hnew
    obtain ⟨hkeys, hnd, hcap, hlen⟩ := h
    refine ⟨h1, h2, h3, ?_⟩
    intro k0 hhead
    cases hko : c.keys_order with
    | nil => rw [hko] at hhead; exact absurd hhead (by simp)
    | cons kh tl =>
      rw [hko] at hhead
      have hk0 : k0 = kh := by simpa [eq_comm] using hhead
      subst hk0
      have hndc := hko ▸ hnd
      have hkh_tl : k0 ∉ tl := (List.nodup_cons.mp hndc).1
      have hobj : obj ∉ hmKeys c.cache := by
        intro hm
        rw [(hmContains_iff_mem c.cache obj).mpr hm] at hnew
        exact absurd hnew (by decide)
      have hk0_keys : k0 ∈ c.keys_order := by
        rw [hko]; exact List.mem_cons_self _ _
      have hk0_ne_obj : k0 ≠ obj := by
        intro heq
        exact hobj (heq ▸ (hkeys ▸ hk0_keys))
      rw [h2, hko]
      intro hmm
      rcases List.mem_append.mp hmm with hmm | hmm
      · exact hkh_tl (by simpa using hmm)
      · exact hk0_ne_obj (by simpa using hmm)
  · intro c h obj t now hmem
    obtain ⟨h1, h2, h3⟩ := PlanCache.insert_existing h t now hmem
    obtain ⟨hkeys, hnd, hcap, hlen⟩ := h
    have hobjmem : obj ∈ c.keys_order :=
      hkeys ▸ (hmContains_iff_mem _ _).mp hmem
    refine ⟨h3, ?_, h1, ?_⟩
    · intro k
      rw [h2, hkeys]
      simp only [List.mem_append, List.mem_singleton,
        List.Nodup.mem_erase_iff hnd]
      constructor
      · rintro (⟨_, hk⟩ | rfl)
        · exact hk
        · exact hobjmem
      · intro hk
        by_cases hko : k = obj
        · exact Or.inr hko
        · exact Or.inl ⟨hko, hk⟩
    · rw [h1]
      simp

/-- A concrete full, well-formed cache of capacity 2 holding keys "a", "b". -/
def twoEntryCache : PlanCache :=
  { capacity := 2,
    cache := [("a", dummyTask, 0), ("b", dummyTask, 1)],
    keys_order := ["a", "b"] }

/-- Witness for claim C9: applying the invariants to the concrete full cache —
an insert of the fresh key "c" evicts exactly the oldest key "a", and a
re-insert of "a" evicts nothing while moving "a" to the newest position. -/
theorem plan_cache_invariants_C9_witness :
    (twoEntryCache.insert "c" dummyTask 2).keys_order = ["b", "c"] ∧
    "a" ∉ hmKeys (twoEntryCache.insert "c" dummyTask 2).cache ∧
    (twoEntryCache.insert "a" dummyTask2 3).len = twoEntryCache.len ∧
    (twoEntryCache.insert "a" dummyTask2 3).keys_order = ["b", "a"] := by
  have hfull := plan_cache_invariants_C9.2.1 twoEntryCache (by decide)
    "c" dummyTask 2 (by decide) (by decide)
  have hre := plan_cache_invariants_C9.2.2.1 twoEntryCache (by decide)
    "a" dummyTask2 3 (by decide)
  exact ⟨hfull.1, hfull.2.2.2 "a" (by decide), hre.1, hre.2.2.1⟩
